import Mathlib

/-!
Shallow embedding of `src/server.js` (rtgg-proxy): a proxy that fetches a
remote scoreboard feed, normalizes it (`parseLeaderboard`), caches the result
for 60 seconds (`getLeaderboard`), and serves it over HTTP.

JSON values are modelled by `JVal`; JavaScript numbers are modelled as
integers (the feed's scores, periods and array lengths are integral), so
string-to-number coercion of fractional/exponent forms is modelled as NaN.
`undefined` is a distinct value (`JVal.undefined`), produced by property access on
values lacking the property; property access on `null`/`undefined` is the
TypeError case, modelled with `Except`.
-/

inductive JVal where
  | undefined : JVal
  | null : JVal
  | bool : Bool → JVal
  | num : Int → JVal
  | str : String → JVal
  | arr : List JVal → JVal
  | obj : List (String × JVal) → JVal

/-- JavaScript truthiness of a value. -/
def truthy : JVal → Bool
  | .undefined => false
  | .null => false
  | .bool b => b
  | .num n => n ≠ 0
  | .str s => s ≠ ""
  | .arr _ => true
  | .obj _ => true

/-- Object field lookup; `JSON.parse` keeps the last of duplicate keys. -/
def objLookup (fs : List (String × JVal)) (k : String) : JVal :=
  match fs.reverse.find? (fun p => p.1 = k) with
  | some p => p.2
  | none => .undefined

/-- Property access `v.k` on a non-nullish value (callers guard `null` /
`undefined`, where JavaScript would throw): objects look up the field, arrays
and strings expose `length`, other primitives yield `undefined`. -/
def jsProp : JVal → String → JVal
  | .obj fs, k => objLookup fs k
  | .arr xs, k =>
    if k = "length" then .num xs.length
    else
      match k.toNat? with
      | some i => if toString i = k then (xs.get? i).getD .undefined else .undefined
      | none => .undefined
  | .str s, k => if k = "length" then .num s.length else .undefined
  | _, _ => .undefined

/-- Index access `v[0]` on a non-nullish value. -/
def jsIndex0 : JVal → JVal
  | .arr xs => (xs.head?).getD .undefined
  | .str s => if s.isEmpty then .undefined else .str (s.take 1)
  | .obj fs => objLookup fs "0"
  | _ => .undefined

mutual
/-- JavaScript `String(v)` conversion. -/
def jsToString : JVal → String
  | .undefined => "undefined"
  | .null => "null"
  | .bool b => if b then "true" else "false"
  | .num n => toString n
  | .str s => s
  | .arr xs => jsJoinList xs
  | .obj _ => "[object Object]"
/-- Array-to-string join with comma; nullish elements become empty. -/
def jsJoinList : List JVal → String
  | [] => ""
  | x :: rest =>
    (match x with
     | JVal.undefined => ""
     | JVal.null => ""
     | _ => jsToString x)
    ++ (match rest with
        | [] => ""
        | _ => "," ++ jsJoinList rest)
end

/-- Whitespace characters skipped by JavaScript numeric parsing. -/
def isWs (c : Char) : Bool :=
  c = ' ' || c = '\t' || c = '\n' || c = '\r' || c = '\x0b' || c = '\x0c'

/-- Value of a hexadecimal digit, if any. -/
def hexDigitVal (c : Char) : Option Nat :=
  if '0' ≤ c ∧ c ≤ '9' then some (c.toNat - '0'.toNat)
  else if 'a' ≤ c ∧ c ≤ 'f' then some (c.toNat - 'a'.toNat + 10)
  else if 'A' ≤ c ∧ c ≤ 'F' then some (c.toNat - 'A'.toNat + 10)
  else none

def decDigitsVal (cs : List Char) : Nat :=
  cs.foldl (fun a c => a * 10 + (c.toNat - '0'.toNat)) 0

def hexDigitsVal (cs : List Char) : Nat :=
  cs.foldl (fun a c => a * 16 + ((hexDigitVal c).getD 0)) 0

/-- Leading-sign split for numeric parsing. -/
def splitSign : List Char → Int × List Char
  | '-' :: rest => (-1, rest)
  | '+' :: rest => (1, rest)
  | cs => (1, cs)

def isHexPrefix : List Char → Bool
  | '0' :: 'x' :: _ => true
  | '0' :: 'X' :: _ => true
  | _ => false

/-- JavaScript `parseInt(s)` (radix auto-detected): skip whitespace, optional
sign, optional `0x` hex prefix, then the maximal digit prefix; `none` is NaN. -/
def jsParseInt (s : String) : Option Int :=
  let cs := s.toList.dropWhile isWs
  let (sign, cs2) := splitSign cs
  if isHexPrefix cs2 then
    let hex := (cs2.drop 2).takeWhile (fun c => (hexDigitVal c).isSome)
    if hex.isEmpty then none else some (sign * (hexDigitsVal hex : Int))
  else
    let ds := cs2.takeWhile Char.isDigit
    if ds.isEmpty then none else some (sign * (decDigitsVal ds : Int))

/-- JavaScript `ToNumber` on a string (integer forms only; fractional and
exponent forms are modelled as NaN, see header note). -/
def strToNumber (s : String) : Option Int :=
  let cs := ((s.toList.dropWhile isWs).reverse.dropWhile isWs).reverse
  if cs.isEmpty then some 0
  else if isHexPrefix cs then
    let hex := (cs.drop 2).takeWhile (fun c => (hexDigitVal c).isSome)
    if hex.isEmpty ∨ ¬ ((cs.drop 2).all (fun c => (hexDigitVal c).isSome)) then none
    else some (hexDigitsVal hex : Int)
  else
    let (sign, cs2) := splitSign cs
    if cs2.isEmpty then none
    else if cs2.all Char.isDigit then some (sign * (decDigitsVal cs2 : Int))
    else none

/-- JavaScript `ToNumber`; `none` is NaN. -/
def jsToNumber : JVal → Option Int
  | .undefined => none
  | .null => some 0
  | .bool b => some (if b then 1 else 0)
  | .num n => some n
  | .str s => strToNumber s
  | .arr xs => strToNumber (jsToString (.arr xs))
  | .obj _ => none

/-- JavaScript `v > 0` (numeric coercion; NaN compares false). -/
def jsGT0 (v : JVal) : Bool :=
  match jsToNumber v with
  | some n => n > 0
  | none => false

/-- Index access `v[i]` with a computed numeric index (`none` is NaN, which
becomes the property name `NaN` on objects). -/
def jsIndexAt (v : JVal) (i : Option Int) : JVal :=
  match v with
  | .arr xs =>
    match i with
    | some n => if 0 ≤ n ∧ n < (xs.length : Int) then (xs.get? n.toNat).getD .undefined else .undefined
    | none => .undefined
  | .str s =>
    match i with
    | some n =>
      if 0 ≤ n ∧ n < (s.length : Int) then
        match s.toList.get? n.toNat with
        | some c => .str (String.singleton c)
        | none => .undefined
      else .undefined
    | none => .undefined
  | .obj fs => objLookup fs (match i with | some n => toString n | none => "NaN")
  | _ => .undefined

/-- Normalized entry for one competitor (server.js lines 94-99). The `name`
keeps the raw JavaScript value since `c.athlete && c.athlete.displayName || ''`
can yield a non-string, and the later filter tests its truthiness. -/
structure Player where
  name : JVal
  score : String
  thru : String
  position : String

/-- Normalized leaderboard snapshot: `{status: 'no_tournament'}` or the
`status: 'ok'` record of server.js lines 104-111. `tournament` and
`roundStatus` keep raw values (`activeEvent.name || 'PGA Tour Event'` and the
`shortDetail` chain can yield non-strings). -/
inductive Snapshot where
  | noTournament : Snapshot
  | ok : JVal → String → JVal → List Player → String → Snapshot

/-- Score formatting, server.js lines 65-67:
`rawScore = c.score || '0'; n = parseInt(rawScore);`
`score = isNaN(n) ? 'E' : n === 0 ? 'E' : n < 0 ? String(n) : '+' + n`. -/
def formatScore (sv : JVal) : String :=
  let rawScore := if truthy sv then sv else .str "0"
  match jsParseInt (jsToString rawScore) with
  | none => "E"
  | some n => if n = 0 then "E" else if n < 0 then toString n else "+" ++ toString n

/-- Position, server.js lines 70-78 (`athleteStatus` already lowercased):
`'cut'` maps to `MC`, `'wd'` to `WD`, otherwise
`c.sortOrder ? String(c.sortOrder) : String(idx + 1)`. -/
def positionOf (athleteStatus : String) (idx : Nat) (soV : JVal) : String :=
  if athleteStatus = "cut" then "MC"
  else if athleteStatus = "wd" then "WD"
  else if truthy soV then jsToString soV else toString (idx + 1)

/-- Thru, server.js lines 81-92: `F` when finished; else when
`c.linescores && c.linescores.length > 0`, the last round entry's
`linescores.length` as a string, or `F` when that entry lacks them; else `--`. -/
def computeThru (isFinished : Bool) (lsV : JVal) : String :=
  if isFinished then "F"
  else if truthy lsV && jsGT0 (jsProp lsV "length") then
    let currentRound := jsIndexAt lsV ((jsToNumber (jsProp lsV "length")).map (fun n => n - 1))
    let sub := if truthy currentRound then jsProp currentRound "linescores" else currentRound
    if truthy sub then jsToString (jsProp sub "length") else "F"
  else "--"

/-- Whether a value is `null` or `undefined` (property access throws). -/
def isNullish : JVal → Bool
  | .undefined => true
  | .null => true
  | _ => false

/-- ASCII lowercasing of one character. -/
def lowerChar (c : Char) : Char :=
  if 'A' ≤ c ∧ c ≤ 'Z' then Char.ofNat (c.toNat + 32) else c

/-- `s.toLowerCase()` (restricted to ASCII case mapping, which covers the
feed's status strings). -/
def jsToLowerCase (s : String) : String :=
  ⟨s.data.map lowerChar⟩

/-- The athlete status string of server.js line 69,
`(c.status || '').toLowerCase()`: `none` when `.toLowerCase` is called on a
truthy non-string, where JavaScript throws a TypeError. -/
def athleteStatusOf (c : JVal) : Option String :=
  match (if truthy (jsProp c "status") then jsProp c "status" else .str "") with
  | .str s => some (jsToLowerCase s)
  | _ => none

/-- The map callback of server.js lines 64-99 for one competitor. Errors model
the JavaScript TypeErrors: property access on a nullish competitor (line 65)
and `.toLowerCase()` on a truthy non-string status (line 69). -/
def mapCompetitor (isFinished : Bool) (idx : Nat) (c : JVal) : Except String Player :=
  if isNullish c then .error "TypeError"
  else
    let score := formatScore (jsProp c "score")
    match athleteStatusOf c with
    | none => .error "TypeError"
    | some athleteStatus =>
      let pos := positionOf athleteStatus idx (jsProp c "sortOrder")
      let thru := computeThru isFinished (jsProp c "linescores")
      let a := jsProp c "athlete"
      let dn := if truthy a then jsProp a "displayName" else a
      let nameV := if truthy dn then dn else .str ""
      .ok ⟨nameV, score, thru, pos⟩

/-- `(compet.competitors || []).map(...)` applied in source order; the first
thrown TypeError aborts the whole map, as in JavaScript. -/
def mapCompetitorsFrom (isFinished : Bool) : Nat → List JVal → Except String (List Player)
  | _, [] => .ok []
  | idx, c :: rest =>
    match mapCompetitor isFinished idx c with
    | .error e => .error e
    | .ok p =>
      match mapCompetitorsFrom isFinished (idx + 1) rest with
      | .error e => .error e
      | .ok ps => .ok (p :: ps)

/-- `e.competitions && e.competitions[0]` (server.js lines 41 and 51). -/
def primaryCompet (e : JVal) : JVal :=
  let comps := jsProp e "competitions"
  if truthy comps then jsIndex0 comps else comps

/-- The guarded chain `compet.status && compet.status.type && compet.status.type.<field> || ''`
(server.js lines 43, 54, 61); `compet` is truthy at every call site. -/
def statusChain (compet : JVal) (field : String) : JVal :=
  let s := jsProp compet "status"
  let v :=
    if truthy s then
      let ty := jsProp s "type"
      if truthy ty then jsProp ty field else ty
    else s
  if truthy v then v else .str ""

/-- `compet.status && compet.status.period || 1` (server.js line 60). -/
def periodOf (compet : JVal) : JVal :=
  let s := jsProp compet "status"
  let p := if truthy s then jsProp s "period" else s
  if truthy p then p else .num 1

/-- Strict equality `v === 'lit'` against a string literal: true exactly for
the same string value. -/
def strictEqStr (v : JVal) (s : String) : Bool :=
  match v with
  | .str t => t = s
  | _ => false

/-- The `events.find` callback, server.js lines 40-45. A nullish element makes
JavaScript throw inside the callback. -/
def eventMatches (e : JVal) : Except String Bool :=
  if isNullish e then .error "TypeError"
  else
    let compet := primaryCompet e
    if ¬ truthy compet then .ok false
    else
      let statusName := statusChain compet "name"
      .ok (strictEqStr statusName "STATUS_IN_PROGRESS" || strictEqStr statusName "STATUS_PLAY_COMPLETE")

/-- `Array.prototype.find`: first element whose predicate holds; a thrown
error in the callback propagates. -/
def findFirstM (p : JVal → Except String Bool) : List JVal → Except String (Option JVal)
  | [] => .ok none
  | x :: rest =>
    match p x with
    | .error e => .error e
    | .ok true => .ok (some x)
    | .ok false => findFirstM p rest

/-- `events.find(...) || events[0]` (server.js lines 40-45): the found element
when truthy, else the first element (`undefined` on an empty list). -/
def selectActive (events : List JVal) : Except String JVal :=
  match findFirstM eventMatches events with
  | .error e => .error e
  | .ok (some e) => .ok (if truthy e then e else (events.head?).getD .undefined)
  | .ok none => .ok ((events.head?).getD .undefined)

/-- `const events = espnData.events || []` then `events.find` (lines 37-40):
property access on a nullish payload throws, and calling `.find` on a truthy
non-array throws. -/
def eventsListOf (espnData : JVal) : Except String (List JVal) :=
  if isNullish espnData then .error "TypeError"
  else
    let ev := jsProp espnData "events"
    let evOr := if truthy ev then ev else .arr []
    match evOr with
    | .arr xs => .ok xs
    | _ => .error "TypeError"

/-- `(compet.competitors || [])` then `.map` (line 64): calling `.map` on a
truthy non-array throws. -/
def competitorsListOf (compet : JVal) : Except String (List JVal) :=
  let cv := jsProp compet "competitors"
  let cvOr := if truthy cv then cv else .arr []
  match cvOr with
  | .arr xs => .ok xs
  | _ => .error "TypeError"

/-- `validStatuses.includes(statusName)` (server.js lines 55-56). -/
def statusValid (statusName : JVal) : Bool :=
  match statusName with
  | .str s =>
    ["STATUS_IN_PROGRESS", "STATUS_SCHEDULED", "STATUS_FINAL", "STATUS_PLAY_COMPLETE"].contains s
  | _ => false

/-- `statusName === 'STATUS_FINAL' || statusName === 'STATUS_PLAY_COMPLETE'`
(server.js line 62). -/
def isFinishedOf (statusName : JVal) : Bool :=
  strictEqStr statusName "STATUS_FINAL" || strictEqStr statusName "STATUS_PLAY_COMPLETE"

/-- The normalizer `parseLeaderboard` (server.js lines 36-112). `t` is the
`new Date().toISOString()` timestamp read at line 110. `Except.error` models a
thrown TypeError. -/
def parseLeaderboard (espnData : JVal) (t : String) : Except String Snapshot :=
  match eventsListOf espnData with
  | .error e => .error e
  | .ok events =>
    match selectActive events with
    | .error e => .error e
    | .ok activeEvent =>
      if ¬ truthy activeEvent then .ok .noTournament
      else
        let compet := primaryCompet activeEvent
        if ¬ truthy compet then .ok .noTournament
        else
          let statusName := statusChain compet "name"
          if ¬ statusValid statusName then .ok .noTournament
          else
            let roundNum := periodOf compet
            let statusDesc := statusChain compet "shortDetail"
            let isFinished := isFinishedOf statusName
            match competitorsListOf compet with
            | .error e => .error e
            | .ok compList =>
              match mapCompetitorsFrom isFinished 0 compList with
              | .error e => .error e
              | .ok mapped =>
                let players := mapped.filter (fun p => truthy p.name)
                if players.isEmpty then .ok .noTournament
                else
                  let tname := jsProp activeEvent "name"
                  .ok (.ok (if truthy tname then tname else .str "PGA Tour Event")
                        ("Round " ++ jsToString roundNum) statusDesc players t)

/-- `CACHE_TTL = 60 * 1000` milliseconds (server.js line 117). -/
def CACHE_TTL : Int := 60 * 1000

/-- The module-level cache (server.js lines 115-116): `cache = null`,
`cacheTime = 0`. -/
structure CacheSt where
  cache : Option Snapshot
  cacheTime : Int

def initialCache : CacheSt := ⟨none, 0⟩

/-- What one `getLeaderboard()` call returns: a snapshot, or the
`{status: 'error', message}` object built on line 134. -/
inductive LBResult where
  | snap : Snapshot → LBResult
  | errorObj : String → LBResult

/-- Observable outcome of one `getLeaderboard()` call: the returned value, the
cache state afterwards, and whether an outbound fetch was issued. -/
structure LBCall where
  result : LBResult
  state : CacheSt
  fetched : Bool

/-- The `try`/`catch` body of server.js lines 124-135 (reached when the cache
is absent or expired). `fr` is the outcome `fetchESPN()` would produce and `t`
the timestamp string for `parseLeaderboard`. The catch block handles both
fetch rejections and TypeErrors thrown by `parseLeaderboard`: with a prior
cache it returns it unchanged (line 133), else the error object (line 134);
on success it stores the fresh snapshot and sets `cacheTime = now` (the time
read at line 120). -/
def refreshOutcome (st : CacheSt) (now : Int) (fr : Except String JVal) (t : String) :
    LBCall :=
  match (match fr with
         | .error e => .error e
         | .ok raw => parseLeaderboard raw t : Except String Snapshot) with
  | .ok snap => ⟨.snap snap, ⟨some snap, now⟩, true⟩
  | .error msg =>
    match st.cache with
    | some c => ⟨.snap c, st, true⟩
    | none => ⟨.errorObj msg, st, true⟩

/-- `getLeaderboard()` (server.js lines 119-136): return the cached snapshot
when `cache && (now - cacheTime) < CACHE_TTL`, else refresh. -/
def getLeaderboard (st : CacheSt) (now : Int) (fr : Except String JVal) (t : String) :
    LBCall :=
  match st.cache with
  | some c =>
    if now - st.cacheTime < CACHE_TTL then ⟨.snap c, st, false⟩
    else refreshOutcome st now fr t
  | none => refreshOutcome st now fr t

/-- Control point of one in-flight `getLeaderboard()` call in the Node.js
event loop: `ready t` before the synchronous cache check (with `now = t` from
line 120), `inflight t` while suspended on `await fetchESPN()`, `done r` after
returning. -/
inductive CallPhase where
  | ready : Int → CallPhase
  | inflight : Int → CallPhase
  | done : LBResult → CallPhase

inductive Caller where
  | A : Caller
  | B : Caller

/-- Two overlapping `getLeaderboard()` calls sharing the module-level cache. -/
structure SysState where
  a : CallPhase
  b : CallPhase
  cache : Option Snapshot
  cacheTime : Int

def SysState.phase (s : SysState) : Caller → CallPhase
  | .A => s.a
  | .B => s.b

def SysState.setPhase (s : SysState) : Caller → CallPhase → SysState
  | .A, p => { s with a := p }
  | .B, p => { s with b := p }

def SysState.cacheSt (s : SysState) : CacheSt := ⟨s.cache, s.cacheTime⟩

/-- Interleaving semantics of overlapping `getLeaderboard()` calls under
Node's run-to-completion-between-awaits scheduling: the synchronous prefix
(cache check through issuing `fetchESPN()`, lines 120-125) is one atomic step,
and resumption after the `await` (lines 126-135, reading the cache as it is at
completion time) is another. -/
inductive AsyncStep : SysState → SysState → Prop
  | hitCache (s : SysState) (w : Caller) (now : Int) (c : Snapshot) :
      s.phase w = .ready now → s.cache = some c → now - s.cacheTime < CACHE_TTL →
      AsyncStep s (s.setPhase w (.done (.snap c)))
  | startFetchNone (s : SysState) (w : Caller) (now : Int) :
      s.phase w = .ready now → s.cache = none →
      AsyncStep s (s.setPhase w (.inflight now))
  | startFetchStale (s : SysState) (w : Caller) (now : Int) (c : Snapshot) :
      s.phase w = .ready now → s.cache = some c → CACHE_TTL ≤ now - s.cacheTime →
      AsyncStep s (s.setPhase w (.inflight now))
  | finishFetch (s : SysState) (w : Caller) (now : Int) (fr : Except String JVal)
      (t : String) :
      s.phase w = .inflight now →
      AsyncStep s
        { (s.setPhase w (.done (refreshOutcome s.cacheSt now fr t).result)) with
          cache := (refreshOutcome s.cacheSt now fr t).state.cache,
          cacheTime := (refreshOutcome s.cacheSt now fr t).state.cacheTime }

/-- Response body produced by the request handler (server.js lines 138-167). -/
inductive RespBody where
  | empty : RespBody
  | leaderboard : RespBody
  | health : RespBody
  | notFound : RespBody
  | serverError : RespBody

structure HttpResp where
  statusCode : Nat
  body : RespBody

/-- The `http.createServer` request handler (server.js lines 138-167), after
the unconditional CORS/content-type headers: `OPTIONS` → 204; exact URL
`'/leaderboard'` or `'/'` → 200 with the leaderboard (500 if awaiting
`getLeaderboard()` threw, the `lb` parameter; the model `getLeaderboard` never
throws since lines 124-135 catch everything); exact `'/health'` → 200; any
other URL → 404 `{"error": "Not found"}`. Only `req.method === 'OPTIONS'` is
inspected; the URL is compared as a full string, query string included. -/
def handleRequest (method url : String) (lb : Except String Unit) : HttpResp :=
  if method = "OPTIONS" then ⟨204, .empty⟩
  else if url = "/leaderboard" ∨ url = "/" then
    match lb with
    | .ok _ => ⟨200, .leaderboard⟩
    | .error _ => ⟨500, .serverError⟩
  else if url = "/health" then ⟨200, .health⟩
  else ⟨404, .notFound⟩

/-- Sample competitor: score `"-2"`, status `"active"`, `sortOrder` 3. -/
def sampleCompetitor : JVal :=
  .obj [("score", .str "-2"), ("status", .str "active"), ("sortOrder", .num 3),
        ("athlete", .obj [("displayName", .str "Alice")])]

/-- Sample in-progress event holding `sampleCompetitor`. -/
def sampleEvent : JVal :=
  .obj [("name", .str "Sample Open"),
        ("competitions", .arr [
          .obj [("status", .obj [("period", .num 2),
                                 ("type", .obj [("name", .str "STATUS_IN_PROGRESS"),
                                                ("shortDetail", .str "Rd 2 In Progress")])]),
                ("competitors", .arr [sampleCompetitor])]])]

/-- Sample feed payload: one in-progress event with one competitor. -/
def sampleRaw : JVal := .obj [("events", .arr [sampleEvent])]

/-- Event whose competition status name is outside the four recognized
values. -/
def canceledEvent : JVal :=
  .obj [("name", .str "Gone Open"),
        ("competitions", .arr [
          .obj [("status", .obj [("type", .obj [("name", .str "STATUS_CANCELED")])])]])]

/-- Normalized form of `sampleRaw`. -/
def sampleSnap (t : String) : Snapshot :=
  .ok (.str "Sample Open") "Round 2" (.str "Rd 2 In Progress")
    [⟨.str "Alice", "-2", "--", "3"⟩] t

/-- Competitor whose `status` field is the number `42`. -/
def badStatusCompetitor : JVal :=
  .obj [("score", .num (-2)), ("status", .num 42),
        ("athlete", .obj [("displayName", .str "Bob")])]

/-- Feed payload that is pure JSON (one in-progress event) but carries a
numeric competitor `status`. -/
def badStatusRaw : JVal :=
  .obj [("events", .arr [
    .obj [("competitions", .arr [
      .obj [("status", .obj [("type", .obj [("name", .str "STATUS_IN_PROGRESS")])]),
            ("competitors", .arr [badStatusCompetitor])]])]])]

/-- Competitor with a present `sortOrder` field whose value is `0`. -/
def zeroSortCompetitor : JVal :=
  .obj [("score", .str "-2"), ("sortOrder", .num 0),
        ("athlete", .obj [("displayName", .str "Carol")])]

/-- Feed payload: one in-progress event whose only competitor has
`sortOrder: 0`. -/
def zeroSortRaw : JVal :=
  .obj [("events", .arr [
    .obj [("name", .str "Zero Open"),
          ("competitions", .arr [
            .obj [("status", .obj [("type", .obj [("name", .str "STATUS_IN_PROGRESS")])]),
                  ("competitors", .arr [zeroSortCompetitor])]])]])]

theorem refreshOutcome_fetched (st : CacheSt) (now : Int) (fr : Except String JVal)
    (t : String) : (refreshOutcome st now fr t).fetched = true := by
  rcases fr with msg | raw
  · cases hc : st.cache <;> simp [refreshOutcome, hc]
  · cases hp : parseLeaderboard raw t
    · cases hc : st.cache <;> simp [refreshOutcome, hp, hc]
    · simp [refreshOutcome, hp]

theorem refreshOutcome_ok (st : CacheSt) (now : Int) (raw : JVal) (t : String)
    (snap : Snapshot) (hp : parseLeaderboard raw t = .ok snap) :
    refreshOutcome st now (.ok raw) t = ⟨.snap snap, ⟨some snap, now⟩, true⟩ := by
  simp [refreshOutcome, hp]

theorem refreshOutcome_err_some (st : CacheSt) (now : Int) (msg : String) (t : String)
    (c : Snapshot) (hc : st.cache = some c) :
    refreshOutcome st now (.error msg) t = ⟨.snap c, st, true⟩ := by
  simp [refreshOutcome, hc]

theorem refreshOutcome_err_none (st : CacheSt) (now : Int) (msg : String) (t : String)
    (hc : st.cache = none) :
    refreshOutcome st now (.error msg) t = ⟨.errorObj msg, st, true⟩ := by
  simp [refreshOutcome, hc]

theorem getLeaderboard_fresh (st : CacheSt) (now : Int) (fr : Except String JVal)
    (t : String) (c : Snapshot) (hc : st.cache = some c)
    (h : now - st.cacheTime < CACHE_TTL) :
    getLeaderboard st now fr t = ⟨.snap c, st, false⟩ := by
  obtain ⟨cc, ct⟩ := st
  simp only at hc h
  subst hc
  simp [getLeaderboard, h]

theorem getLeaderboard_stale (st : CacheSt) (now : Int) (fr : Except String JVal)
    (t : String) (c : Snapshot) (hc : st.cache = some c)
    (h : ¬ now - st.cacheTime < CACHE_TTL) :
    getLeaderboard st now fr t = refreshOutcome st now fr t := by
  obtain ⟨cc, ct⟩ := st
  simp only at hc h
  subst hc
  simp [getLeaderboard, h]

theorem getLeaderboard_nocache (st : CacheSt) (now : Int) (fr : Except String JVal)
    (t : String) (hc : st.cache = none) :
    getLeaderboard st now fr t = refreshOutcome st now fr t := by
  obtain ⟨cc, ct⟩ := st
  simp only at hc
  subst hc
  simp [getLeaderboard]

/-- C1: If a cached snapshot exists and its age is strictly below 60 seconds,
`getLeaderboard` returns it unchanged with no outbound fetch; with a cached
snapshot aged 60 seconds or more it issues a fetch; and after a call that
fetched successfully, any retrieval within 60 seconds of it issues no further
fetch, so two retrievals within 60 seconds make exactly one fetch. -/
theorem getLeaderboard_ttl_cache (st : CacheSt) (now now2 : Int)
    (fr fr2 : Except String JVal) (t t2 : String) :
    (∀ c : Snapshot, st.cache = some c → now - st.cacheTime < CACHE_TTL →
      getLeaderboard st now fr t = ⟨.snap c, st, false⟩) ∧
    (∀ c : Snapshot, st.cache = some c → CACHE_TTL ≤ now - st.cacheTime →
      (getLeaderboard st now fr t).fetched = true) ∧
    (∀ (raw : JVal) (snap : Snapshot), fr = .ok raw →
      parseLeaderboard raw t = .ok snap →
      (getLeaderboard st now fr t).fetched = true →
      now2 - now < CACHE_TTL →
      (getLeaderboard (getLeaderboard st now fr t).state now2 fr2 t2).fetched = false) := by
  refine ⟨?_, ?_, ?_⟩
  · intro c hc hlt
    exact getLeaderboard_fresh st now fr t c hc hlt
  · intro c hc hge
    rw [getLeaderboard_stale st now fr t c hc (by omega)]
    exact refreshOutcome_fetched st now fr t
  · intro raw snap hfr hp hfetched hlt
    subst hfr
    have hrefresh : refreshOutcome st now (.ok raw) t = ⟨.snap snap, ⟨some snap, now⟩, true⟩ :=
      refreshOutcome_ok st now raw t snap hp
    have hcall : getLeaderboard st now (.ok raw) t = ⟨.snap snap, ⟨some snap, now⟩, true⟩ := by
      cases hc : st.cache with
      | none => rw [getLeaderboard_nocache st now (.ok raw) t hc]; exact hrefresh
      | some c =>
        by_cases hfresh : now - st.cacheTime < CACHE_TTL
        · rw [getLeaderboard_fresh st now (.ok raw) t c hc hfresh] at hfetched
          simp at hfetched
        · rw [getLeaderboard_stale st now (.ok raw) t c hc hfresh]; exact hrefresh
    rw [hcall]
    rw [getLeaderboard_fresh ⟨some snap, now⟩ now2 fr2 t2 snap rfl (by simpa using hlt)]

/-- Witness for C1 at concrete inputs: a fresh cache is returned unchanged
without a fetch, a 60-second-old cache triggers a fetch, and a second
retrieval 10 ms after a successful cold fetch does not fetch again. -/
theorem getLeaderboard_ttl_cache_witness :
    getLeaderboard ⟨some .noTournament, 0⟩ 1000 (.ok sampleRaw) "T" =
      ⟨.snap .noTournament, ⟨some .noTournament, 0⟩, false⟩ ∧
    (getLeaderboard ⟨some .noTournament, 0⟩ 60000 (.ok sampleRaw) "T").fetched = true ∧
    (getLeaderboard (getLeaderboard initialCache 5 (.ok sampleRaw) "T").state
      15 (.ok sampleRaw) "T2").fetched = false := by
  refine ⟨?_, ?_, ?_⟩
  · exact (getLeaderboard_ttl_cache ⟨some .noTournament, 0⟩ 1000 0 (.ok sampleRaw)
      (.ok sampleRaw) "T" "T").1 .noTournament rfl (by decide)
  · exact (getLeaderboard_ttl_cache ⟨some .noTournament, 0⟩ 60000 0 (.ok sampleRaw)
      (.ok sampleRaw) "T" "T").2.1 .noTournament rfl (by decide)
  · exact (getLeaderboard_ttl_cache initialCache 5 15 (.ok sampleRaw)
      (.ok sampleRaw) "T" "T2").2.2 sampleRaw (sampleSnap "T") rfl rfl
      (by rw [getLeaderboard_nocache initialCache 5 (.ok sampleRaw) "T" rfl]
          exact refreshOutcome_fetched initialCache 5 (.ok sampleRaw) "T")
      (by decide)

/-- C2: When the refresh fetch fails while a cached snapshot exists, the call
returns that prior snapshot unchanged, the whole cache state (snapshot and
timestamp) is unmodified, and any later call still past the TTL issues a new
fetch attempt. -/
theorem getLeaderboard_stale_on_error (st : CacheSt) (now now2 : Int) (msg : String)
    (fr2 : Except String JVal) (t t2 : String) (c : Snapshot)
    (hc : st.cache = some c) (hstale : CACHE_TTL ≤ now - st.cacheTime) :
    getLeaderboard st now (.error msg) t = ⟨.snap c, st, true⟩ ∧
    (CACHE_TTL ≤ now2 - st.cacheTime →
      (getLeaderboard (getLeaderboard st now (.error msg) t).state now2 fr2 t2).fetched
        = true) := by
  have hcall : getLeaderboard st now (.error msg) t = ⟨.snap c, st, true⟩ := by
    rw [getLeaderboard_stale st now (.error msg) t c hc (by omega)]
    exact refreshOutcome_err_some st now msg t c hc
  refine ⟨hcall, ?_⟩
  intro h2
  rw [hcall]
  rw [getLeaderboard_stale st now2 fr2 t2 c hc (by omega)]
  exact refreshOutcome_fetched st now2 fr2 t2

/-- Witness for C2: with a stale cached `no_tournament` snapshot and a failing
fetch, the stale snapshot is returned, state untouched, and a later call past
the TTL fetches. -/
theorem getLeaderboard_stale_on_error_witness :
    getLeaderboard ⟨some .noTournament, 0⟩ 60000 (.error "Request timed out") "T" =
      ⟨.snap .noTournament, ⟨some .noTournament, 0⟩, true⟩ ∧
    (getLeaderboard
      (getLeaderboard ⟨some .noTournament, 0⟩ 60000 (.error "Request timed out") "T").state
      120000 (.ok sampleRaw) "T2").fetched = true := by
  have h := getLeaderboard_stale_on_error ⟨some .noTournament, 0⟩ 60000 120000
    "Request timed out" (.ok sampleRaw) "T" "T2" .noTournament rfl (by decide)
  exact ⟨h.1, h.2 (by decide)⟩

/-- C3: When the refresh fetch fails and no cached snapshot exists, the call
returns the `{status: 'error', message}` object, the cache stays empty
(the error value is not stored), and every subsequent call issues a fetch
attempt again. -/
theorem getLeaderboard_error_not_cached (st : CacheSt) (now : Int) (msg : String)
    (t : String) (hc : st.cache = none) :
    getLeaderboard st now (.error msg) t = ⟨.errorObj msg, st, true⟩ ∧
    (getLeaderboard st now (.error msg) t).state.cache = none ∧
    (∀ (now2 : Int) (fr2 : Except String JVal) (t2 : String),
      (getLeaderboard (getLeaderboard st now (.error msg) t).state now2 fr2 t2).fetched
        = true) := by
  have hcall : getLeaderboard st now (.error msg) t = ⟨.errorObj msg, st, true⟩ := by
    rw [getLeaderboard_nocache st now (.error msg) t hc]
    exact refreshOutcome_err_none st now msg t hc
  refine ⟨hcall, by rw [hcall]; exact hc, ?_⟩
  intro now2 fr2 t2
  rw [hcall]
  rw [getLeaderboard_nocache st now2 fr2 t2 hc]
  exact refreshOutcome_fetched st now2 fr2 t2

/-- Witness for C3: a cold-cache failing fetch returns the error object,
leaves the cache empty, and the next call fetches again. -/
theorem getLeaderboard_error_not_cached_witness :
    getLeaderboard initialCache 5 (.error "Failed to parse ESPN response") "T" =
      ⟨.errorObj "Failed to parse ESPN response", initialCache, true⟩ ∧
    (getLeaderboard initialCache 5 (.error "Failed to parse ESPN response") "T").state.cache
      = none ∧
    (getLeaderboard
      (getLeaderboard initialCache 5 (.error "Failed to parse ESPN response") "T").state
      6 (.ok sampleRaw) "T2").fetched = true := by
  have h := getLeaderboard_error_not_cached initialCache 5 "Failed to parse ESPN response"
    "T" rfl
  exact ⟨h.1, h.2.1, h.2.2 6 (.ok sampleRaw) "T2"⟩

/-- C4: The claim says the normalizer is total on every JSON-shaped payload.
The code is not: on `badStatusRaw` — plain JSON in which one competitor's
`status` field is the number `42` — line 69's
`(c.status || '').toLowerCase()` calls `.toLowerCase` on a number and throws a
TypeError instead of yielding a snapshot (and `parseLeaderboard(null)` throws
at `espnData.events` likewise). -/
theorem parseLeaderboard_throws_on_numeric_status :
    parseLeaderboard badStatusRaw "T" = .error "TypeError" ∧
    parseLeaderboard .null "T" = .error "TypeError" := ⟨rfl, rfl⟩

/-- C5: The spec requires at-most-one concurrent outbound fetch, but
`getLeaderboard` has no single-flight guard: from an empty cache, two
overlapping calls can both pass the cache check and both issue a fetch. The
state with both calls suspended on `await fetchESPN()` is reachable. -/
theorem double_inflight_fetch_reachable :
    ∃ s : SysState,
      Relation.ReflTransGen AsyncStep ⟨.ready 0, .ready 0, none, 0⟩ s ∧
      s.a = .inflight 0 ∧ s.b = .inflight 0 := by
  refine ⟨⟨.inflight 0, .inflight 0, none, 0⟩, ?_, rfl, rfl⟩
  have h1 : AsyncStep ⟨.ready 0, .ready 0, none, 0⟩ ⟨.inflight 0, .ready 0, none, 0⟩ :=
    AsyncStep.startFetchNone ⟨.ready 0, .ready 0, none, 0⟩ .A 0 rfl rfl
  have h2 : AsyncStep ⟨.inflight 0, .ready 0, none, 0⟩ ⟨.inflight 0, .inflight 0, none, 0⟩ :=
    AsyncStep.startFetchNone ⟨.inflight 0, .ready 0, none, 0⟩ .B 0 rfl rfl
  exact Relation.ReflTransGen.head h1 (Relation.ReflTransGen.single h2)

/-- C6: Every competitor row carries `formatScore` of its raw `score` field,
and `formatScore` yields `E` for an absent/falsy or non-parsing or
zero-parsing score, the plain signed decimal for a negative parse, and the
`+`-prefixed decimal for a positive parse. -/
theorem formatScore_cases (sv : JVal) (n : Int) :
    (∀ (fin : Bool) (idx : Nat) (c : JVal) (p : Player),
      mapCompetitor fin idx c = .ok p → p.score = formatScore (jsProp c "score")) ∧
    (¬ truthy sv → formatScore sv = "E") ∧
    (truthy sv → jsParseInt (jsToString sv) = none → formatScore sv = "E") ∧
    (truthy sv → jsParseInt (jsToString sv) = some 0 → formatScore sv = "E") ∧
    (truthy sv → jsParseInt (jsToString sv) = some n → n < 0 →
      formatScore sv = toString n) ∧
    (truthy sv → jsParseInt (jsToString sv) = some n → 0 < n →
      formatScore sv = "+" ++ toString n) := by
  refine ⟨?_, ?_, ?_, ?_, ?_, ?_⟩
  · intro fin idx c p h
    by_cases hn : isNullish c
    · simp [mapCompetitor, hn] at h
    · cases hs : athleteStatusOf c with
      | none => simp [mapCompetitor, hn, hs] at h
      | some st =>
        simp [mapCompetitor, hn, hs] at h
        rw [← h]
  · intro h
    simp only [formatScore, h, if_false, Bool.false_eq_true]
    rfl
  · intro ht hp
    simp [formatScore, ht, hp]
  · intro ht hp
    simp [formatScore, ht, hp]
  · intro ht hp hneg
    have h0 : ¬ n = 0 := by omega
    simp [formatScore, ht, hp, h0, hneg]
  · intro ht hp hpos
    have h0 : n ≠ 0 := by omega
    have h1 : ¬ n < 0 := by omega
    simp [formatScore, ht, hp, h0, h1]

/-- Witness for C6 at concrete scores: `5` formats as `+5`, `-3` as `-3`,
numeric `0` and absent scores as `E`, and the sample competitor's row score is
`formatScore` of its score field. -/
theorem formatScore_cases_witness :
    formatScore (.str "5") = "+" ++ toString (5 : Int) ∧
    formatScore (.str "-3") = toString (-3 : Int) ∧
    formatScore (.num 0) = "E" ∧
    formatScore .undefined = "E" ∧
    (⟨.str "Alice", "-2", "--", "3"⟩ : Player).score =
      formatScore (jsProp sampleCompetitor "score") := by
  refine ⟨?_, ?_, ?_, ?_, ?_⟩
  · exact (formatScore_cases (.str "5") 5).2.2.2.2.2 (by decide) rfl (by decide)
  · exact (formatScore_cases (.str "-3") (-3)).2.2.2.2.1 (by decide) rfl (by decide)
  · exact (formatScore_cases (.num 0) 0).2.1 (by decide)
  · exact (formatScore_cases .undefined 0).2.1 (by decide)
  · exact (formatScore_cases .undefined 0).1 false 0 sampleCompetitor
      ⟨.str "Alice", "-2", "--", "3"⟩ rfl

/-- C7 counterexample: in `zeroSortRaw` the only competitor HAS a `sortOrder`
field, with value `0`; the claim then requires position `String(0) = "0"`, but
the code's truthiness test `c.sortOrder ? ... : String(idx + 1)` falls back to
the index and yields `"1"`. -/
theorem position_zero_sortOrder_cex :
    parseLeaderboard zeroSortRaw "T" =
      .ok (.ok (.str "Zero Open") "Round 1" (.str "")
        [⟨.str "Carol", "-2", "--", "1"⟩] "T") ∧
    jsProp zeroSortCompetitor "sortOrder" = .num 0 ∧
    jsToString (.num 0) = "0" ∧
    ("1" : String) ≠ "0" := ⟨rfl, rfl, rfl, by decide⟩

/-- C7 (amended): position is `MC`/`WD` when the lowercased status is
`cut`/`wd`, overriding any sort order; otherwise it is the sort-order field
rendered as a string when that field is present and truthy, and the string
form of (index+1) when the field is absent or falsy (e.g. `0`). -/
theorem positionOf_cases :
    (∀ (idx : Nat) (soV : JVal), positionOf "cut" idx soV = "MC") ∧
    (∀ (idx : Nat) (soV : JVal), positionOf "wd" idx soV = "WD") ∧
    (∀ (s : String) (idx : Nat) (soV : JVal), s ≠ "cut" → s ≠ "wd" → truthy soV →
      positionOf s idx soV = jsToString soV) ∧
    (∀ (s : String) (idx : Nat) (soV : JVal), s ≠ "cut" → s ≠ "wd" → ¬ truthy soV →
      positionOf s idx soV = toString (idx + 1)) ∧
    (∀ (fin : Bool) (idx : Nat) (c : JVal) (p : Player),
      mapCompetitor fin idx c = .ok p →
      ∃ st : String, athleteStatusOf c = some st ∧
        p.position = positionOf st idx (jsProp c "sortOrder")) := by
  refine ⟨?_, ?_, ?_, ?_, ?_⟩
  · intro idx soV; simp [positionOf]
  · intro idx soV; simp [positionOf]
  · intro s idx soV h1 h2 ht; simp [positionOf, h1, h2, ht]
  · intro s idx soV h1 h2 ht; simp [positionOf, h1, h2, ht]
  · intro fin idx c p h
    by_cases hn : isNullish c
    · simp [mapCompetitor, hn] at h
    · cases hs : athleteStatusOf c with
      | none => simp [mapCompetitor, hn, hs] at h
      | some st =>
        refine ⟨st, rfl, ?_⟩
        simp [mapCompetitor, hn, hs] at h
        rw [← h]

/-- Witness for C7's amended claim at concrete inputs: `cut` forces `MC` even
with a sort order, a truthy sort order `3` renders as `"3"`, a falsy sort
order falls back to the index, and the sample competitor's position is
`positionOf` of its lowercased status. -/
theorem positionOf_cases_witness :
    positionOf "cut" 4 (.num 7) = "MC" ∧
    positionOf "active" 0 (.num 3) = jsToString (.num 3) ∧
    positionOf "" 0 (.num 0) = toString (0 + 1) ∧
    (athleteStatusOf sampleCompetitor = some "active" ∧
      (⟨.str "Alice", "-2", "--", "3"⟩ : Player).position =
        positionOf "active" 0 (jsProp sampleCompetitor "sortOrder")) := by
  refine ⟨?_, ?_, ?_, ?_⟩
  · exact positionOf_cases.1 4 (.num 7)
  · exact positionOf_cases.2.2.1 "active" 0 (.num 3) (by decide) (by decide) (by decide)
  · exact positionOf_cases.2.2.2.1 "" 0 (.num 0) (by decide) (by decide) (by decide)
  · obtain ⟨st, hst, hpos⟩ := positionOf_cases.2.2.2.2 false 0 sampleCompetitor
      ⟨.str "Alice", "-2", "--", "3"⟩ rfl
    have : st = "active" := by
      have h2 : athleteStatusOf sampleCompetitor = some "active" := rfl
      rw [h2] at hst
      exact (Option.some.injEq _ _ ▸ hst).symm
    subst this
    exact ⟨hst, hpos⟩

theorem int_ofNat_toString (n : Nat) : toString (n : Int) = toString n := rfl

theorem jsIndexAt_last (xs : List JVal) (l : JVal) (h : xs.getLast? = some l) :
    jsIndexAt (.arr xs) (some ((xs.length : Int) - 1)) = l := by
  have hne : xs ≠ [] := by
    intro he
    rw [he] at h
    simp [List.getLast?] at h
  have hlen : 1 ≤ xs.length := by
    cases xs with
    | nil => exact absurd rfl hne
    | cons a as => simp
  have hget : xs.get? (xs.length - 1) = some l := by
    rw [← List.getLast?_eq_get?]
    exact h
  have hcond : (0 : Int) ≤ (xs.length : Int) - 1 ∧ (xs.length : Int) - 1 < (xs.length : Int) := by
    omega
  have htn : ((xs.length : Int) - 1).toNat = xs.length - 1 := by omega
  simp only [jsIndexAt, hcond, and_self, if_true, htn, hget, Option.getD_some]

/-- C8: Every competitor row's `thru` is `computeThru` of its line-score
field; when the competition is finished `thru` is `F` regardless of
line-score content; otherwise it is `--` with a falsy or empty line-score
field, the string count of the last round entry's sub-entries when present,
and `F` when the last round entry lacks (truthy) sub-entries. -/
theorem computeThru_cases :
    (∀ (fin : Bool) (idx : Nat) (c : JVal) (p : Player),
      mapCompetitor fin idx c = .ok p → p.thru = computeThru fin (jsProp c "linescores")) ∧
    (∀ lsV : JVal, computeThru true lsV = "F") ∧
    (∀ lsV : JVal, ¬ truthy lsV → computeThru false lsV = "--") ∧
    (computeThru false (.arr []) = "--") ∧
    (∀ (xs : List JVal) (l : JVal) (subxs : List JVal),
      xs.getLast? = some l → truthy l → jsProp l "linescores" = .arr subxs →
      computeThru false (.arr xs) = toString subxs.length) ∧
    (∀ (xs : List JVal) (l : JVal),
      xs.getLast? = some l →
      ¬ truthy (if truthy l then jsProp l "linescores" else l) →
      computeThru false (.arr xs) = "F") := by
  have harrlen : ∀ (xs : List JVal) (l : JVal), xs.getLast? = some l →
      (truthy (.arr xs) && jsGT0 (jsProp (.arr xs) "length")) = true := by
    intro xs l h
    have hne : xs ≠ [] := by
      intro he
      rw [he] at h
      simp [List.getLast?] at h
    have hlen : 1 ≤ xs.length := by
      cases xs with
      | nil => exact absurd rfl hne
      | cons a as => simp
    simp [truthy, jsProp, jsGT0, jsToNumber]
    omega
  have hcur : ∀ (xs : List JVal) (l : JVal), xs.getLast? = some l →
      jsIndexAt (.arr xs) ((jsToNumber (jsProp (.arr xs) "length")).map (fun n => n - 1)) = l := by
    intro xs l h
    have : jsProp (.arr xs) "length" = .num xs.length := by simp [jsProp]
    rw [this]
    simp only [jsToNumber, Option.map_some]
    exact jsIndexAt_last xs l h
  refine ⟨?_, ?_, ?_, ?_, ?_, ?_⟩
  · intro fin idx c p h
    by_cases hn : isNullish c
    · simp [mapCompetitor, hn] at h
    · cases hs : athleteStatusOf c with
      | none => simp [mapCompetitor, hn, hs] at h
      | some st =>
        simp [mapCompetitor, hn, hs] at h
        rw [← h]
  · intro lsV; simp [computeThru]
  · intro lsV h; simp [computeThru, h]
  · simp [computeThru, truthy, jsProp, jsGT0, jsToNumber]
  · intro xs l subxs hlast htruthy hsub
    rw [computeThru, if_neg (by simp), if_pos (harrlen xs l hlast)]
    simp only [hcur xs l hlast, htruthy, if_true, hsub]
    rw [if_pos (by simp [truthy])]
    have hl : jsProp (.arr subxs) "length" = .num subxs.length := by simp [jsProp]
    rw [hl]
    exact int_ofNat_toString subxs.length
  · intro xs l hlast hsub
    rw [computeThru, if_neg (by simp), if_pos (harrlen xs l hlast)]
    simp only [hcur xs l hlast]
    rw [if_neg hsub]

/-- Witness for C8 at concrete inputs: `thru` is `F` when finished even with
line scores present, `--` with no line-score data, the sub-entry count `"2"`
for an unfinished last round with two hole entries, `F` when the last round
entry has no sub-entries, and the sample competitor's row `thru` is
`computeThru` of its line-score field. -/
theorem computeThru_cases_witness :
    computeThru true (.arr [.obj [("linescores", .arr [.num 4])]]) = "F" ∧
    computeThru false .undefined = "--" ∧
    computeThru false (.arr [.obj [("linescores", .arr [.num 4, .num 3])]]) = toString 2 ∧
    computeThru false (.arr [.obj [("value", .num 70)]]) = "F" ∧
    (⟨.str "Alice", "-2", "--", "3"⟩ : Player).thru =
      computeThru false (jsProp sampleCompetitor "linescores") := by
  refine ⟨?_, ?_, ?_, ?_, ?_⟩
  · exact computeThru_cases.2.1 (.arr [.obj [("linescores", .arr [.num 4])]])
  · exact computeThru_cases.2.2.1 .undefined (by decide)
  · exact computeThru_cases.2.2.2.2.1 [.obj [("linescores", .arr [.num 4, .num 3])]]
      (.obj [("linescores", .arr [.num 4, .num 3])]) [.num 4, .num 3] rfl (by decide) rfl
  · exact computeThru_cases.2.2.2.2.2 [.obj [("value", .num 70)]]
      (.obj [("value", .num 70)]) rfl (by decide)
  · exact computeThru_cases.1 false 0 sampleCompetitor ⟨.str "Alice", "-2", "--", "3"⟩ rfl

theorem eventMatches_true_truthy (e : JVal) (h : eventMatches e = .ok true) :
    truthy e = true := by
  cases e with
  | undefined => simp [eventMatches, isNullish] at h
  | null => simp [eventMatches, isNullish] at h
  | bool b =>
    cases b with
    | false => simp [eventMatches, isNullish, primaryCompet, jsProp, truthy] at h
    | true => rfl
  | num n =>
    by_cases hz : n = 0
    · subst hz
      simp [eventMatches, isNullish, primaryCompet, jsProp, truthy] at h
    · simp [truthy, hz]
  | str s =>
    by_cases hz : s = ""
    · subst hz
      simp [eventMatches, isNullish, primaryCompet, jsProp, truthy] at h
    · simp [truthy, hz]
  | arr xs => rfl
  | obj fs => rfl

theorem findFirstM_some_spec (p : JVal → Except String Bool) :
    ∀ (l : List JVal) (e : JVal), findFirstM p l = .ok (some e) →
    ∃ i : Nat, l.get? i = some e ∧ p e = .ok true ∧
      ∀ j : Nat, j < i → ∃ ej : JVal, l.get? j = some ej ∧ p ej = .ok false := by
  intro l
  induction l with
  | nil => intro e h; simp [findFirstM] at h
  | cons x rest ih =>
    intro e h
    rw [findFirstM] at h
    cases hx : p x with
    | error msg => rw [hx] at h; simp at h
    | ok b =>
      cases b with
      | true =>
        rw [hx] at h
        simp at h
        subst h
        exact ⟨0, rfl, hx, fun j hj => absurd hj (by omega)⟩
      | false =>
        rw [hx] at h
        simp at h
        obtain ⟨i, hget, htrue, hbefore⟩ := ih e h
        refine ⟨i + 1, by simpa using hget, htrue, ?_⟩
        intro j hj
        cases j with
        | zero => exact ⟨x, rfl, hx⟩
        | succ j2 =>
          obtain ⟨ej, h1, h2⟩ := hbefore j2 (by omega)
          exact ⟨ej, by simpa using h1, h2⟩

/-- C9: The active event is the first event whose primary competition status
name is `STATUS_IN_PROGRESS` or `STATUS_PLAY_COMPLETE` (the `find` callback
holds for it and fails for every earlier event); with no match the first event
is the fallback; with an empty or absent events list the normalizer returns
`no_tournament`, and likewise when the selected event has no truthy primary
competition or its status name is outside the four recognized values. -/
theorem parseLeaderboard_event_selection :
    (∀ (v : JVal) (t : String), eventsListOf v = .ok [] →
      parseLeaderboard v t = .ok .noTournament) ∧
    (∀ (v : JVal) (t : String), ¬ isNullish v = true → ¬ truthy (jsProp v "events") = true →
      parseLeaderboard v t = .ok .noTournament) ∧
    (∀ (evs : List JVal) (e : JVal), findFirstM eventMatches evs = .ok (some e) →
      selectActive evs = .ok e ∧
      ∃ i : Nat, evs.get? i = some e ∧ eventMatches e = .ok true ∧
        ∀ j : Nat, j < i → ∃ ej : JVal, evs.get? j = some ej ∧ eventMatches ej = .ok false) ∧
    (∀ evs : List JVal, findFirstM eventMatches evs = .ok none →
      selectActive evs = .ok ((evs.head?).getD .undefined)) ∧
    (∀ (v : JVal) (t : String) (evs : List JVal) (e : JVal),
      eventsListOf v = .ok evs → selectActive evs = .ok e → truthy e = true →
      ¬ truthy (primaryCompet e) = true →
      parseLeaderboard v t = .ok .noTournament) ∧
    (∀ (v : JVal) (t : String) (evs : List JVal) (e : JVal),
      eventsListOf v = .ok evs → selectActive evs = .ok e → truthy e = true →
      truthy (primaryCompet e) = true →
      ¬ statusValid (statusChain (primaryCompet e) "name") = true →
      parseLeaderboard v t = .ok .noTournament) := by
  have hempty : ∀ (v : JVal) (t : String), eventsListOf v = .ok [] →
      parseLeaderboard v t = .ok .noTournament := by
    intro v t h
    rw [parseLeaderboard, h]
    simp [selectActive, findFirstM, truthy]
  refine ⟨hempty, ?_, ?_, ?_, ?_, ?_⟩
  · intro v t hnull hev
    apply hempty
    simp [eventsListOf, hnull, hev]
  · intro evs e h
    have htrue : eventMatches e = .ok true := by
      obtain ⟨i, _, htrue, _⟩ := findFirstM_some_spec eventMatches evs e h
      exact htrue
    constructor
    · rw [selectActive, h]
      simp [eventMatches_true_truthy e htrue]
    · exact findFirstM_some_spec eventMatches evs e h
  · intro evs h
    rw [selectActive, h]
  · intro v t evs e hv hsel htr hcompet
    simp only [parseLeaderboard, hv, hsel]
    simp [htr, hcompet]
  · intro v t evs e hv hsel htr hcompet hstatus
    simp only [parseLeaderboard, hv, hsel]
    simp [htr, hcompet, hstatus]

/-- Witness for C9 at concrete inputs: an empty events list and an absent
events field give `no_tournament`; a matching second event is selected over a
non-matching first; a falsy-competition fallback event and an unrecognized
status name give `no_tournament`. -/
theorem parseLeaderboard_event_selection_witness :
    parseLeaderboard (.obj [("events", .arr [])]) "T" = .ok .noTournament ∧
    parseLeaderboard (.obj [("foo", .num 1)]) "T" = .ok .noTournament ∧
    selectActive [.obj [], sampleEvent] = .ok sampleEvent ∧
    selectActive [.num 1] = .ok (.num 1) ∧
    parseLeaderboard (.obj [("events", .arr [.num 1])]) "T" = .ok .noTournament ∧
    parseLeaderboard (.obj [("events", .arr [canceledEvent])]) "T" = .ok .noTournament := by
  refine ⟨?_, ?_, ?_, ?_, ?_, ?_⟩
  · exact parseLeaderboard_event_selection.1 (.obj [("events", .arr [])]) "T" rfl
  · exact parseLeaderboard_event_selection.2.1 (.obj [("foo", .num 1)]) "T"
      (by decide) (by decide)
  · exact (parseLeaderboard_event_selection.2.2.1 [.obj [], sampleEvent] sampleEvent rfl).1
  · exact parseLeaderboard_event_selection.2.2.2.1 [.num 1] rfl
  · exact parseLeaderboard_event_selection.2.2.2.2.1 (.obj [("events", .arr [.num 1])]) "T"
      [.num 1] (.num 1) rfl rfl (by decide) (by decide)
  · exact parseLeaderboard_event_selection.2.2.2.2.2
      (.obj [("events", .arr [canceledEvent])]) "T" [canceledEvent] canceledEvent
      rfl rfl (by decide) (by decide) (by decide)

/-- C10 counterexample: a GET for `/health` — a URL differing from `'/'` and
`'/leaderboard'` with a non-OPTIONS method — receives 200 with the health
body, not the 404 the claim requires for every other URL. -/
theorem handleRequest_health_cex :
    handleRequest "GET" "/health" (.ok ()) = ⟨200, .health⟩ ∧
    handleRequest "GET" "/health" (.ok ()) ≠ ⟨404, .notFound⟩ ∧
    ("/health" : String) ≠ "/" ∧ ("/health" : String) ≠ "/leaderboard" ∧
    ("GET" : String) ≠ "OPTIONS" := by
  refine ⟨rfl, ?_, by decide, by decide, by decide⟩
  intro h
  have h2 : (200 : Nat) = 404 := congrArg HttpResp.statusCode h
  omega

/-- C10 (amended): routing compares the full URL string exactly and, outside
the OPTIONS preflight branch, ignores the method: `'/'` or `'/leaderboard'`
gets 200 with the leaderboard body under any non-OPTIONS method, `'/health'`
gets 200 with the health body, and every other URL (including
`'/leaderboard?x=1'`) gets 404 `{"error": "Not found"}`. -/
theorem handleRequest_routing (method method2 url : String) (lb : Except String Unit) :
    (method ≠ "OPTIONS" → (url = "/leaderboard" ∨ url = "/") →
      handleRequest method url (.ok ()) = ⟨200, .leaderboard⟩) ∧
    (method ≠ "OPTIONS" → url = "/health" →
      handleRequest method url lb = ⟨200, .health⟩) ∧
    (method ≠ "OPTIONS" → url ≠ "/leaderboard" → url ≠ "/" → url ≠ "/health" →
      handleRequest method url lb = ⟨404, .notFound⟩) ∧
    (method ≠ "OPTIONS" → method2 ≠ "OPTIONS" →
      handleRequest method url lb = handleRequest method2 url lb) ∧
    (handleRequest "OPTIONS" url lb = ⟨204, .empty⟩) := by
  refine ⟨?_, ?_, ?_, ?_, rfl⟩
  · intro hm hu
    rcases hu with hu | hu <;> subst hu <;> simp [handleRequest, hm]
  · intro hm hu
    subst hu
    simp [handleRequest, hm]
  · intro hm h1 h2 h3
    simp [handleRequest, hm, h1, h2, h3]
  · intro hm hm2
    simp [handleRequest, hm, hm2]

/-- Witness for C10's amended claim: a POST to `/leaderboard` gets the
leaderboard with 200, a GET for `/health` gets the health body, and a GET for
`/leaderboard?x=1` gets 404. -/
theorem handleRequest_routing_witness :
    handleRequest "POST" "/leaderboard" (.ok ()) = ⟨200, .leaderboard⟩ ∧
    handleRequest "GET" "/health" (.error "boom") = ⟨200, .health⟩ ∧
    handleRequest "GET" "/leaderboard?x=1" (.ok ()) = ⟨404, .notFound⟩ := by
  refine ⟨?_, ?_, ?_⟩
  · exact (handleRequest_routing "POST" "GET" "/leaderboard" (.ok ())).1
      (by decide) (Or.inl rfl)
  · exact (handleRequest_routing "GET" "GET" "/health" (.error "boom")).2.1
      (by decide) rfl
  · exact (handleRequest_routing "GET" "GET" "/leaderboard?x=1" (.ok ())).2.2.1
      (by decide) (by decide) (by decide) (by decide)
